/-
Verification of the TDoA impact-localizer core of `shock.cpp`
(sensor edge capture, capture-window state machine, Gauss-Newton
TDoA solver, wave-speed calibration, wave-speed validation).

Modelling conventions:
* `float` / `double` arithmetic is embedded as exact rational
  arithmetic over `ℚ`.  Square roots (`sqrt`, `Math.hypot`) are kept
  abstract: the solver and calibration accumulator are parametrised
  by a function `f : ℚ → ℚ` standing for "square root of" applied to
  the squared radicand, so every structural theorem below holds for
  any square-root implementation.  `ratSqrt` is one concrete choice
  that is exact on perfect squares of rationals.
* 32-bit `unsigned long` microsecond timestamps are `ℕ`; the
  constant `~0u` used as an "infinity" sentinel is `UMAX = 2^32 - 1`.
  The 16-bit edge counters wrap modulo `2^16` where incremented.
* The fixed sensor count is 4, indexed by `Fin 4`.
-/
import Mathlib

set_option maxRecDepth 4000
set_option maxHeartbeats 1000000

attribute [local semireducible] Rat.mul Rat.inv Rat.add Rat.sub

namespace Shock

/-- Sensor x-coordinates (meters), `SX` in the source. -/
def SX : Fin 4 → ℚ := ![1/5, 1/5, 3/10, 1/10]

/-- Sensor y-coordinates (meters), `SY` in the source. -/
def SY : Fin 4 → ℚ := ![1/10, 3/10, 1/5, 1/5]

/-- Board side length in meters (`BOARD_SIZE_M = 0.4f`). -/
def BOARD_SIZE_M : ℚ := 2/5

def BOARD_MIN_X : ℚ := 0
def BOARD_MAX_X : ℚ := BOARD_SIZE_M
def BOARD_MIN_Y : ℚ := 0
def BOARD_MAX_Y : ℚ := BOARD_SIZE_M

/-- Solver acceptance threshold, meters RMS residual (`0.02f`). -/
def SOLVER_RMS_THRESH_M : ℚ := 1/50

/-- `~0u` on a 32-bit target: the sentinel initial value of the
"earliest timestamp" accumulators. -/
def UMAX : ℕ := 4294967295

/-- Fuel-bounded integer Newton iteration for the floor square
root (structurally recursive, so it evaluates by reduction). -/
def intSqrtAux (n : ℕ) : ℕ → ℕ → ℕ
  | 0, x => x
  | fuel + 1, x =>
    let y := (x + n / x) / 2
    if y < x then intSqrtAux n fuel y else x

/-- Floor square root of a natural number (exact on perfect
squares below `2^128`). -/
def intSqrt (n : ℕ) : ℕ := if n = 0 then 0 else intSqrtAux n 128 n

/-- A concrete computable square-root stand-in: exact on perfect
squares of rationals (in particular on `0` and `1/100`, the only
radicands arising in the concrete runs used below). -/
def ratSqrt (q : ℚ) : ℚ :=
  if q ≤ 0 then 0 else ((intSqrt (q.num.toNat * q.den) : ℚ) / (q.den : ℚ))

/-- `have`: the number of channels whose first-arrival timestamp is
nonzero (source line 309-310 / 625). -/
def haveCount (t : Fin 4 → ℕ) : ℕ :=
  (if t 0 ≠ 0 then 1 else 0) + (if t 1 ≠ 0 then 1 else 0) +
  (if t 2 ≠ 0 then 1 else 0) + (if t 3 ≠ 0 then 1 else 0)

/-- One step of the reference-selection scan
(`if (t[i] && t[i] < tref) { tref = t[i]; ref = i; }`). -/
def refStep (t : Fin 4 → ℕ) (i : Fin 4) (p : Fin 4 × ℕ) : Fin 4 × ℕ :=
  if t i ≠ 0 ∧ t i < p.2 then (i, t i) else p

/-- Reference channel and its timestamp: the earliest nonzero
arrival, starting from `ref = 0`, `tref = ~0u` (source 315-318). -/
def refSel (t : Fin 4 → ℕ) : Fin 4 × ℕ :=
  refStep t 3 (refStep t 2 (refStep t 1 (refStep t 0 (0, UMAX))))

/-- `use[i]`: channel `i` participates in the residuals
(source 324-330: skipped when `i == ref` or `t[i] == 0`). -/
def useCh (t : Fin 4 → ℕ) (i : Fin 4) : Prop :=
  i ≠ (refSel t).1 ∧ t i ≠ 0

instance (t : Fin 4 → ℕ) (i : Fin 4) : Decidable (useCh t i) := by
  unfold useCh; infer_instance

/-- `rows`, counted against an explicit reference index. -/
def rowsAux (t : Fin 4 → ℕ) (r : Fin 4) : ℕ :=
  (if 0 ≠ r ∧ t 0 ≠ 0 then 1 else 0) + (if 1 ≠ r ∧ t 1 ≠ 0 then 1 else 0) +
  (if 2 ≠ r ∧ t 2 ≠ 0 then 1 else 0) + (if 3 ≠ r ∧ t 3 ≠ 0 then 1 else 0)

/-- `rows`: the number of used (non-reference, firing) channels. -/
def rows (t : Fin 4 → ℕ) : ℕ := rowsAux t (refSel t).1

/-- Observed TDoA range difference for channel `i` relative to the
reference, in meters: `dd[i] = vs * (t[i] - tref) * 1e-6`. -/
def dd (vs : ℚ) (t : Fin 4 → ℕ) (i : Fin 4) : ℚ :=
  vs * ((t i : ℚ) - ((refSel t).2 : ℚ)) * (1/1000000)

/-- At least `have - 1` channels are non-reference and firing. -/
theorem rowsAux_ge (t : Fin 4 → ℕ) (r : Fin 4) :
    haveCount t ≤ rowsAux t r + 1 := by
  fin_cases r <;>
    simp only [haveCount, rowsAux] <;>
    split_ifs <;> simp_all

theorem rows_ge_of_have (t : Fin 4 → ℕ) (h : 3 ≤ haveCount t) :
    2 ≤ rows t := by
  have h2 := rowsAux_ge t (refSel t).1
  unfold rows
  omega

/-- Gauss-Newton loop state: current estimate `(x, y)` plus the two
loop-exit flags (`brokeSingular`, and the early `break` taken once
the applied step is below `1e-4` m). -/
structure GN where
  x : ℚ
  y : ℚ
  sing : Bool
  done : Bool
deriving DecidableEq

/-- The `if (D < eps) D = eps` floor with `eps = 1e-9`, used on
every computed distance (source 349, 358, 407, 413). -/
def guard9 (d : ℚ) : ℚ := if d < 1/1000000000 then 1/1000000000 else d

/-- Per-channel contribution to the 2×2 normal equations. -/
structure NE where
  a00 : ℚ
  a01 : ℚ
  a11 : ℚ
  b0 : ℚ
  b1 : ℚ

/-- One used channel's residual and analytic-Jacobian contribution
to the normal equations at the current estimate (source 354-373);
all zero when the channel is unused. -/
def gnContrib (f : ℚ → ℚ) (sx sy : Fin 4 → ℚ) (vs : ℚ) (t : Fin 4 → ℕ)
    (gx gy Dr dxr dyr : ℚ) (i : Fin 4) : NE :=
  if useCh t i then
    let dxi := gx - sx i
    let dyi := gy - sy i
    let Di := guard9 (f (dxi * dxi + dyi * dyi))
    let ri := (Di - Dr) - dd vs t i
    let jx := dxi / Di - dxr / Dr
    let jy := dyi / Di - dyr / Dr
    ⟨jx * jx, jx * jy, jy * jy, jx * ri, jy * ri⟩
  else ⟨0, 0, 0, 0, 0⟩

/-- One iteration of the damped Gauss-Newton loop (source 345-398):
accumulate the normal equations over the used channels, Levenberg
damping `1e-6` on the diagonal, closed-form 2×2 solve with the
`|det| < 1e-12` singularity abort, step clamp to `0.05` m, then the
early exit when the applied step is shorter than `1e-4` m.  Once a
flag is set the state is frozen, mirroring `break`. -/
def gnStep (f : ℚ → ℚ) (sx sy : Fin 4 → ℚ) (vs : ℚ) (t : Fin 4 → ℕ) (g : GN) : GN :=
  if g.sing ∨ g.done then g else
  let dxr := g.x - sx (refSel t).1
  let dyr := g.y - sy (refSel t).1
  let Dr := guard9 (f (dxr * dxr + dyr * dyr))
  let c0 := gnContrib f sx sy vs t g.x g.y Dr dxr dyr 0
  let c1 := gnContrib f sx sy vs t g.x g.y Dr dxr dyr 1
  let c2 := gnContrib f sx sy vs t g.x g.y Dr dxr dyr 2
  let c3 := gnContrib f sx sy vs t g.x g.y Dr dxr dyr 3
  let A00 := c0.a00 + c1.a00 + c2.a00 + c3.a00 + 1/1000000
  let A01 := c0.a01 + c1.a01 + c2.a01 + c3.a01
  let A11 := c0.a11 + c1.a11 + c2.a11 + c3.a11 + 1/1000000
  let B0 := c0.b0 + c1.b0 + c2.b0 + c3.b0
  let B1 := c0.b1 + c1.b1 + c2.b1 + c3.b1
  let det := A00 * A11 - A01 * A01
  if |det| < 1/1000000000000 then { g with sing := true } else
  let inv00 := A11 / det
  let inv01 := -A01 / det
  let inv11 := A00 / det
  let dx0 := -(inv00 * B0 + inv01 * B1)
  let dy0 := -(inv01 * B0 + inv11 * B1)
  let stepNorm := f (dx0 * dx0 + dy0 * dy0)
  let dx := if 1/20 < stepNorm then dx0 * ((1/20) / stepNorm) else dx0
  let dy := if 1/20 < stepNorm then dy0 * ((1/20) / stepNorm) else dy0
  { x := g.x + dx, y := g.y + dy, sing := false,
    done := decide (f (dx * dx + dy * dy) < 1/10000) }

/-- Initial guess: the centroid of the configured sensor positions
(source 334-337, with `npos = 4`). -/
def gnInit (sx sy : Fin 4 → ℚ) : GN :=
  ⟨(sx 0 + sx 1 + sx 2 + sx 3) / 4, (sy 0 + sy 1 + sy 2 + sy 3) / 4, false, false⟩

/-- The full (up to) 15-iteration Gauss-Newton run. -/
def gnRun (f : ℚ → ℚ) (sx sy : Fin 4 → ℚ) (vs : ℚ) (t : Fin 4 → ℕ) : GN :=
  (gnStep f sx sy vs t)^[15] (gnInit sx sy)

/-- One channel's squared final residual (source 409-416). -/
def rmsTerm (f : ℚ → ℚ) (sx sy : Fin 4 → ℚ) (vs : ℚ) (t : Fin 4 → ℕ)
    (gx gy Dr : ℚ) (i : Fin 4) : ℚ :=
  if useCh t i then
    let dxi := gx - sx i
    let dyi := gy - sy i
    let Di := guard9 (f (dxi * dxi + dyi * dyi))
    let ri := (Di - Dr) - dd vs t i
    ri * ri
  else 0

/-- The residual sum of squares at the converged estimate
(source 402-417). -/
def rssOf (f : ℚ → ℚ) (sx sy : Fin 4 → ℚ) (vs : ℚ) (t : Fin 4 → ℕ)
    (gx gy : ℚ) : ℚ :=
  let dxr := gx - sx (refSel t).1
  let dyr := gy - sy (refSel t).1
  let Dr := guard9 (f (dxr * dxr + dyr * dyr))
  rmsTerm f sx sy vs t gx gy Dr 0 + rmsTerm f sx sy vs t gx gy Dr 1 +
  rmsTerm f sx sy vs t gx gy Dr 2 + rmsTerm f sx sy vs t gx gy Dr 3

/-- Per-axis clamp to the board rectangle (source 425-426). -/
def clampX (v : ℚ) : ℚ :=
  if v < BOARD_MIN_X then BOARD_MIN_X else if BOARD_MAX_X < v then BOARD_MAX_X else v

def clampY (v : ℚ) : ℚ :=
  if v < BOARD_MIN_Y then BOARD_MIN_Y else if BOARD_MAX_Y < v then BOARD_MAX_Y else v

/-- The outcome of `tdoaSolve`: the C++ function's return value
together with the final contents of its three out-parameters
(`x`, `y`, `nUsed`); `x0, y0` below are the values the caller's
variables held on entry. -/
structure SolveOut where
  ok : Bool
  x : ℚ
  y : ℚ
  nUsed : ℕ
deriving DecidableEq

/-- The part of `tdoaSolve` past the two data-sufficiency guards:
the Gauss-Newton run, the singular-system abort, the RMS
acceptance check (`m` there equals `rows`), and the board clamp on
the success path (source 333-430). -/
def tdoaIterPhase (f : ℚ → ℚ) (sx sy : Fin 4 → ℚ) (t : Fin 4 → ℕ)
    (vs x0 y0 : ℚ) : SolveOut :=
  let g := gnRun f sx sy vs t
  if g.sing then ⟨false, x0, y0, haveCount t⟩
  else if 2 ≤ rows t ∧
      SOLVER_RMS_THRESH_M < f (rssOf f sx sy vs t g.x g.y / (rows t : ℚ)) then
    ⟨false, x0, y0, haveCount t⟩
  else ⟨true, clampX g.x, clampY g.y, haveCount t⟩

/-- `tdoaSolve` (source 304-431): fails with no output when fewer
than 3 channels fired (`InsufficientData`) or fewer than 2 usable
rows remain, otherwise runs the iterative phase. -/
def tdoaSolve (f : ℚ → ℚ) (sx sy : Fin 4 → ℚ) (t : Fin 4 → ℕ)
    (vs x0 y0 : ℚ) : SolveOut :=
  if haveCount t < 3 then ⟨false, x0, y0, haveCount t⟩
  else if rows t < 2 then ⟨false, x0, y0, haveCount t⟩
  else tdoaIterPhase f sx sy t vs x0 y0

/-- Both data-sufficiency guards pass, so `tdoaSolve` reaches the
iterative Gauss-Newton phase. -/
def tdoaReachesIter (t : Fin 4 → ℕ) : Prop :=
  3 ≤ haveCount t ∧ 2 ≤ rows t

instance (t : Fin 4 → ℕ) : Decidable (tdoaReachesIter t) := by
  unfold tdoaReachesIter; infer_instance

/-- The per-capture estimate (`struct HitResult`, source 67-72). -/
structure HitResult where
  valid : Bool
  x : ℚ
  y : ℚ
  haveTimes : ℕ
  mode : String
deriving DecidableEq

/-- One step of the fallback earliest-sensor scan
(`if (tcopy[i] && tcopy[i] < tf) { tf = tcopy[i]; first = i; }`). -/
def fbStep (t : Fin 4 → ℕ) (i : Fin 4) (p : Option (Fin 4) × ℕ) :
    Option (Fin 4) × ℕ :=
  if t i ≠ 0 ∧ t i < p.2 then (some i, t i) else p

/-- The fallback's earliest-firing channel, starting from
`first = -1`, `tf = ~0u` (source 637-638); `none` is `-1`. -/
def fallbackFirst (t : Fin 4 → ℕ) : Option (Fin 4) :=
  (fbStep t 3 (fbStep t 2 (fbStep t 1 (fbStep t 0 (none, UMAX))))).1

/-- The estimate produced when the solver was skipped or failed
(source 627, 635-640): the earliest-sensor heuristic, or the
untouched `"none"` result when no channel fired at a
non-sentinel time. -/
def fallbackResult (t : Fin 4 → ℕ) : HitResult :=
  match fallbackFirst t with
  | some i => ⟨true, SX i * (4/5), SY i * (4/5), haveCount t,
      if 2 ≤ haveCount t then "partial" else "nearest"⟩
  | none => ⟨false, 0, 0, haveCount t, "none"⟩

/-- The capture-processing step of `loop` (source 625-640): count
`have`, attempt the solver only when `have >= 3`, and fall back to
the earliest-sensor heuristic otherwise or on solver failure. -/
def processCapture (f : ℚ → ℚ) (t : Fin 4 → ℕ) (vs : ℚ) : HitResult :=
  if 3 ≤ haveCount t then
    let s := tdoaSolve f SX SY t vs 0 0
    if s.ok then ⟨true, s.x, s.y, haveCount t, "tdoa"⟩
    else fallbackResult t
  else fallbackResult t

/-- Squared Euclidean distance between two points. -/
def distSq (p q : ℚ × ℚ) : ℚ := (p.1 - q.1) * (p.1 - q.1) + (p.2 - q.2) * (p.2 - q.2)

/-- The center of the board rectangle. -/
def boardCenter : ℚ × ℚ := (BOARD_SIZE_M / 2, BOARD_SIZE_M / 2)

/-- The capture-side mutable state shared between the ISRs and the
main loop (source 50-62): per-channel first-arrival times, the hit
mask, the window phase flags, the pending-open handoff, and the
diagnostic counters. -/
structure CapState where
  firstTime : Fin 4 → ℕ
  hitMask : ℕ
  armed : Bool
  capturing : Bool
  startPending : Bool
  t0 : ℕ
  firstIndex : Option (Fin 4)
  edgeCount : Fin 4 → ℕ
  lastEdgeUs : Fin 4 → ℕ

/-- The ISR body `latch_time_min(i)` at time `now` (source 435-456):
always bump the diagnostics; request a window open when idle and
armed; latch the channel's first arrival while a window is open or
pending.  The 16-bit edge counter wraps modulo `2^16`. -/
def latch (i : Fin 4) (now : ℕ) (st : CapState) : CapState :=
  let st1 := { st with
    edgeCount := Function.update st.edgeCount i ((st.edgeCount i + 1) % 65536),
    lastEdgeUs := Function.update st.lastEdgeUs i now }
  let st2 :=
    if st.armed ∧ ¬st.capturing ∧ ¬st.startPending then
      { st1 with t0 := now, firstIndex := some i, startPending := true }
    else st1
  -- the second test reads `g_capturing || g_startPending` after the
  -- block above, which can only have turned `startPending` on; the
  -- condition is spelled on the pre-state accordingly, and the mask
  -- and first-arrival array are untouched so far
  if (st.capturing ∨ (st.startPending ∨ (st.armed ∧ ¬st.capturing ∧ ¬st.startPending))) ∧
      ¬st.hitMask.testBit i.val then
    { st2 with hitMask := st.hitMask ||| 2 ^ i.val,
               firstTime := Function.update st.firstTime i now }
  else st2

/-- The window-open handoff in `loop` (source 569-586): when a start
is pending, mark the window open, clear the per-window diagnostics,
make sure the triggering sensor's first arrival exists (latched to
`t0`), and clear the pending flag. -/
def openWindow (st : CapState) : CapState :=
  if st.startPending then
    let st1 := { st with capturing := true, armed := false,
                         edgeCount := fun _ => 0, lastEdgeUs := fun _ => 0 }
    let st2 :=
      match st.firstIndex with
      | some k =>
          if ¬st.hitMask.testBit k.val then
            { st1 with hitMask := st.hitMask ||| 2 ^ k.val,
                       firstTime := Function.update st.firstTime k st.t0 }
          else st1
      | none => st1
    { st2 with startPending := false }
  else st

/-- The post-dead-time re-arm (source 667-674): zero all per-channel
state and the hit mask and arm a new cycle. -/
def rearm (st : CapState) : CapState :=
  { st with armed := true, hitMask := 0, firstIndex := none,
            firstTime := fun _ => 0, edgeCount := fun _ => 0,
            lastEdgeUs := fun _ => 0 }

/-- The hit-mask invariant: bit `i` of the mask is set exactly when
channel `i` holds a nonzero first-arrival timestamp. -/
def maskInv (st : CapState) : Prop :=
  ∀ i : Fin 4, st.hitMask.testBit i.val ↔ st.firstTime i ≠ 0

instance (st : CapState) : Decidable (maskInv st) := by
  unfold maskInv; infer_instance

/-- The dead-time phase: the window has closed (`capturing` was
dropped at snapshot time) and the system is not yet re-armed. -/
def inDeadtime (st : CapState) : Prop :=
  ¬st.armed ∧ ¬st.capturing ∧ ¬st.startPending

instance (st : CapState) : Decidable (inDeadtime st) := by
  unfold inDeadtime; infer_instance

/-- Startup load of the persisted wave speed (source 498-501):
`vsSaved` replaces the default only when `0 < vsSaved < 20000`. -/
def loadVs (saved cur : ℚ) : ℚ :=
  if 0 < saved ∧ saved < 20000 then saved else cur

/-- The observable outcome of a `set_vs` request: the resulting
wave-speed parameter, the value written to the persistent store (if
any), and the acknowledgment sent back (if any). -/
structure SetVsOutcome where
  vs : ℚ
  persisted : Option ℚ
  ack : Option ℚ
deriving DecidableEq

/-- The WebSocket `set_vs` handler (source 530-537): a proposed
value strictly inside `(500, 20000)` is committed, persisted and
acknowledged with the applied value; anything else is silently
ignored. -/
def applySetVs (v cur : ℚ) : SetVsOutcome :=
  if 500 < v ∧ v < 20000 then ⟨v, some v, some v⟩ else ⟨cur, none, none⟩

/-- The calibration session state kept by the UI script
(source 141-142): running sums, sample count, and the derived
estimate (`null` before the first qualifying capture). -/
structure CalibSession where
  sum_ab : ℚ
  sum_bb : ℚ
  sampleCount : ℕ
  vsEst : Option ℚ
deriving DecidableEq

/-- `Math.hypot(dx, dy) || 1e-9` (source 223, 228): the distance
with a zero replaced by `1e-9`; the hypotenuse is modelled as the
abstract square root `f` of the squared radicand. -/
def hyp0 (f : ℚ → ℚ) (dx dy : ℚ) : ℚ :=
  let d := f (dx * dx + dy * dy)
  if d = 0 then 1/1000000000 else d

/-- One step of the calibration script's fallback minimum scan
(`if (t[i]!==null && t[i]<min)`, source 218); `none` in the second
component is `Infinity`. -/
def calibMinStep (t : Fin 4 → Option ℤ) (i : Fin 4)
    (p : Option (Fin 4) × Option ℤ) : Option (Fin 4) × Option ℤ :=
  match t i, p.2 with
  | some v, none => (some i, some v)
  | some v, some m => if v < m then (some i, some v) else p
  | none, _ => p

/-- The calibration reference channel (source 216-218): the first
channel whose relative arrival is exactly `0`, falling back to the
minimum non-null arrival; `none` when every entry is null. -/
def calibRef (t : Fin 4 → Option ℤ) : Option (Fin 4) :=
  if t 0 = some 0 then some 0
  else if t 1 = some 0 then some 1
  else if t 2 = some 0 then some 2
  else if t 3 = some 0 then some 3
  else (calibMinStep t 3 (calibMinStep t 2 (calibMinStep t 1
    (calibMinStep t 0 (none, none))))).1

/-- Channel `i`'s contribution `(a·b, b·b)` to the running sums
(source 225-234): skipped for the reference and for null arrivals;
`b` is the channel's own relative arrival in seconds. -/
def calibTermCode (f : ℚ → ℚ) (tgt : ℚ × ℚ) (t : Fin 4 → Option ℤ)
    (r : Fin 4) (Dr : ℚ) (i : Fin 4) : ℚ × ℚ :=
  if i = r then (0, 0)
  else
    match t i with
    | none => (0, 0)
    | some ti =>
        let Di := hyp0 f (tgt.1 - SX i) (tgt.2 - SY i)
        let a := Di - Dr
        let b := (ti : ℚ) * (1/1000000)
        (a * b, b * b)

/-- `used` (source 224, 233): some non-reference channel had a
non-null arrival, so this capture qualifies as a sample. -/
def calibUsed (t : Fin 4 → Option ℤ) (r : Fin 4) : Prop :=
  ∃ i : Fin 4, i ≠ r ∧ (t i).isSome

instance (t : Fin 4 → Option ℤ) (r : Fin 4) : Decidable (calibUsed t r) := by
  unfold calibUsed; infer_instance

/-- One calibration accumulation step (source 213-244): find the
reference, accumulate `Σ(a·b)` and `Σ(b·b)` over the other firing
channels, and on a qualifying capture bump the sample count and
recompute `vsEst = sum_ab / max(sum_bb, 1e-12)`. -/
def calibStep (f : ℚ → ℚ) (tgt : ℚ × ℚ) (t : Fin 4 → Option ℤ)
    (s : CalibSession) : CalibSession :=
  match calibRef t with
  | none => s
  | some r =>
      let Dr := hyp0 f (tgt.1 - SX r) (tgt.2 - SY r)
      let c0 := calibTermCode f tgt t r Dr 0
      let c1 := calibTermCode f tgt t r Dr 1
      let c2 := calibTermCode f tgt t r Dr 2
      let c3 := calibTermCode f tgt t r Dr 3
      let ab := s.sum_ab + (c0.1 + c1.1 + c2.1 + c3.1)
      let bb := s.sum_bb + (c0.2 + c1.2 + c2.2 + c3.2)
      if calibUsed t r then
        { sum_ab := ab, sum_bb := bb, sampleCount := s.sampleCount + 1,
          vsEst := some (ab / max bb (1/1000000000000)) }
      else { s with sum_ab := ab, sum_bb := bb }

/-- A commit request: the Apply button is clickable only when
`vsEst` is truthy, finite and `sampleCount >= 5` (source 240,
289-296); the request then goes through the device-side `set_vs`
validation.  Anything else leaves the wave speed untouched. -/
def commitRequest (s : CalibSession) (cur : ℚ) : SetVsOutcome :=
  match s.vsEst with
  | some v =>
      if v ≠ 0 ∧ 5 ≤ s.sampleCount then applySetVs v cur
      else ⟨cur, none, none⟩
  | none => ⟨cur, none, none⟩

/-- Sessions whose sums arose from integer-microsecond data: the
quadratic sum is zero (with a zero linear sum) or at least `1e-12`.
Established by the initial state and preserved by `calibStep`. -/
def SessOk (s : CalibSession) : Prop :=
  (s.sum_bb = 0 → s.sum_ab = 0) ∧ (s.sum_bb = 0 ∨ 1/1000000000000 ≤ s.sum_bb)

instance (s : CalibSession) : Decidable (SessOk s) := by
  unfold SessOk; infer_instance

/-- Transcribed from the claim's words: the geometric term
`a = dist(target, s_i) − dist(target, s_ref)` in meters. -/
def claimA (f : ℚ → ℚ) (tgt : ℚ × ℚ) (i r : Fin 4) : ℚ :=
  hyp0 f (tgt.1 - SX i) (tgt.2 - SY i) - hyp0 f (tgt.1 - SX r) (tgt.2 - SY r)

/-- Transcribed from the claim's words: the timing term
`b = (t[i] − t[ref]) × 1e-6` in seconds. -/
def claimB (t : Fin 4 → Option ℤ) (i r : Fin 4) : ℚ :=
  match t i, t r with
  | some a, some b => ((a - b : ℤ) : ℚ) * (1/1000000)
  | _, _ => 0

/-- Transcribed from the claim's words: the `(a·b, b·b)`
contribution of each firing channel other than the reference. -/
def claimTerm (f : ℚ → ℚ) (tgt : ℚ × ℚ) (t : Fin 4 → Option ℤ)
    (r i : Fin 4) : ℚ × ℚ :=
  if i ≠ r ∧ (t i).isSome then
    (claimA f tgt i r * claimB t i r, claimB t i r * claimB t i r)
  else (0, 0)

/-! ## Theorems -/

/-- Every run of `tdoaSolve` either fails with the caller's values
in the out-parameters, or succeeds with the clamped Gauss-Newton
optimum; `nUsed` is always `have`. -/
theorem tdoaSolve_cases (f : ℚ → ℚ) (sx sy : Fin 4 → ℚ) (t : Fin 4 → ℕ)
    (vs x0 y0 : ℚ) :
    tdoaSolve f sx sy t vs x0 y0 = ⟨false, x0, y0, haveCount t⟩ ∨
    tdoaSolve f sx sy t vs x0 y0 =
      ⟨true, clampX (gnRun f sx sy vs t).x, clampY (gnRun f sx sy vs t).y,
        haveCount t⟩ := by
  simp only [tdoaSolve, tdoaIterPhase]
  split_ifs <;> simp

/-- A successful solve requires at least 3 nonzero first-arrivals. -/
theorem solve_ok_have (f : ℚ → ℚ) (sx sy : Fin 4 → ℚ) (t : Fin 4 → ℕ)
    (vs x0 y0 : ℚ) (h : (tdoaSolve f sx sy t vs x0 y0).ok = true) :
    3 ≤ haveCount t := by
  by_contra hc
  push_neg at hc
  unfold tdoaSolve at h
  rw [if_pos hc] at h
  simp at h

/-- **C1.** With fewer than 3 nonzero first-arrivals the solver
reports failure (`InsufficientData`) for every square-root
implementation and every geometry, the iterative phase is
unreachable, and the capture loop goes straight to the fallback
without attempting the solver; with exactly 3 nonzero
first-arrivals both guards pass, so the solve is exactly the
iterative Gauss-Newton phase. -/
theorem C1_insufficient_data_boundary (t : Fin 4 → ℕ) (vs x0 y0 : ℚ) :
    (haveCount t < 3 →
      (∀ f sx sy, tdoaSolve f sx sy t vs x0 y0 = ⟨false, x0, y0, haveCount t⟩) ∧
      ¬tdoaReachesIter t ∧
      (∀ f, processCapture f t vs = fallbackResult t)) ∧
    (haveCount t = 3 →
      tdoaReachesIter t ∧
      (∀ f sx sy, tdoaSolve f sx sy t vs x0 y0 = tdoaIterPhase f sx sy t vs x0 y0)) := by
  constructor
  · intro h
    refine ⟨fun f sx sy => ?_, fun hri => ?_, fun f => ?_⟩
    · unfold tdoaSolve; rw [if_pos h]
    · exact absurd hri.1 (by omega)
    · unfold processCapture; rw [if_neg (by omega)]
  · intro h
    have h2 : 2 ≤ rows t := rows_ge_of_have t (by omega)
    refine ⟨⟨by omega, h2⟩, fun f sx sy => ?_⟩
    unfold tdoaSolve
    rw [if_neg (by omega), if_neg (by omega)]

theorem C1_witness :
    haveCount ![5, 7, 0, 0] < 3 ∧
    tdoaSolve ratSqrt SX SY ![5, 7, 0, 0] 3000 1 2 =
      ⟨false, 1, 2, haveCount ![5, 7, 0, 0]⟩ ∧
    haveCount ![5, 7, 9, 0] = 3 ∧ tdoaReachesIter ![5, 7, 9, 0] :=
  ⟨by decide,
   ((C1_insufficient_data_boundary ![5, 7, 0, 0] 3000 1 2).1 (by decide)).1 ratSqrt SX SY,
   by decide,
   ((C1_insufficient_data_boundary ![5, 7, 9, 0] 3000 1 2).2 (by decide)).1⟩

/-- **C10.** Whenever `tdoaSolve` returns `false` — for any
square-root implementation, snapshot, geometry and wave speed —
its position out-parameters still hold the caller's original
values: the position is written only on the success path. -/
theorem C10_failure_leaves_outputs (f : ℚ → ℚ) (sx sy : Fin 4 → ℚ)
    (t : Fin 4 → ℕ) (vs x0 y0 : ℚ)
    (h : (tdoaSolve f sx sy t vs x0 y0).ok = false) :
    (tdoaSolve f sx sy t vs x0 y0).x = x0 ∧
    (tdoaSolve f sx sy t vs x0 y0).y = y0 := by
  rcases tdoaSolve_cases f sx sy t vs x0 y0 with hc | hc <;> rw [hc] at h ⊢
  · exact ⟨rfl, rfl⟩
  · simp at h

theorem C10_witness :
    (tdoaSolve ratSqrt SX SY ![5, 6, 0, 0] 3000 (7/10) (9/10)).ok = false ∧
    (tdoaSolve ratSqrt SX SY ![5, 6, 0, 0] 3000 (7/10) (9/10)).x = 7/10 ∧
    (tdoaSolve ratSqrt SX SY ![5, 6, 0, 0] 3000 (7/10) (9/10)).y = 9/10 :=
  ⟨by decide,
   C10_failure_leaves_outputs ratSqrt SX SY ![5, 6, 0, 0] 3000 (7/10) (9/10) (by decide)⟩

/-- The per-axis clamp lands inside the board interval. -/
theorem clampX_mem (v : ℚ) : BOARD_MIN_X ≤ clampX v ∧ clampX v ≤ BOARD_MAX_X := by
  unfold clampX BOARD_MIN_X BOARD_MAX_X BOARD_SIZE_M
  split_ifs with h1 h2
  · norm_num
  · norm_num
  · push_neg at h1 h2; exact ⟨h1, h2⟩

theorem clampY_mem (v : ℚ) : BOARD_MIN_Y ≤ clampY v ∧ clampY v ≤ BOARD_MAX_Y := by
  unfold clampY BOARD_MIN_Y BOARD_MAX_Y BOARD_SIZE_M
  split_ifs with h1 h2
  · norm_num
  · norm_num
  · push_neg at h1 h2; exact ⟨h1, h2⟩

/-- Axis-wise, the clamp is the nearest point of the interval. -/
theorem clampX_nearest (v q : ℚ) (h1 : BOARD_MIN_X ≤ q) (h2 : q ≤ BOARD_MAX_X) :
    (clampX v - v) * (clampX v - v) ≤ (q - v) * (q - v) := by
  unfold clampX at *
  unfold BOARD_MIN_X BOARD_MAX_X BOARD_SIZE_M at *
  split_ifs with ha hb
  · nlinarith
  · nlinarith
  · push_neg at ha hb; nlinarith

theorem clampY_nearest (v q : ℚ) (h1 : BOARD_MIN_Y ≤ q) (h2 : q ≤ BOARD_MAX_Y) :
    (clampY v - v) * (clampY v - v) ≤ (q - v) * (q - v) := by
  unfold clampY at *
  unfold BOARD_MIN_Y BOARD_MAX_Y BOARD_SIZE_M at *
  split_ifs with ha hb
  · nlinarith
  · nlinarith
  · push_neg at ha hb; nlinarith

/-- **C3.** Whenever the iterative solve succeeds, the reported
position is the converged Gauss-Newton optimum clamped per axis to
the board rectangle `[0, 0.4] × [0, 0.4]`: it always lies in the
rectangle, and it is a nearest in-bounds point to the
(possibly off-board) converged optimum. -/
theorem C3_success_clamped_in_board (f : ℚ → ℚ) (sx sy : Fin 4 → ℚ)
    (t : Fin 4 → ℕ) (vs x0 y0 : ℚ)
    (h : (tdoaSolve f sx sy t vs x0 y0).ok = true) :
    (tdoaSolve f sx sy t vs x0 y0).x = clampX (gnRun f sx sy vs t).x ∧
    (tdoaSolve f sx sy t vs x0 y0).y = clampY (gnRun f sx sy vs t).y ∧
    BOARD_MIN_X ≤ (tdoaSolve f sx sy t vs x0 y0).x ∧
    (tdoaSolve f sx sy t vs x0 y0).x ≤ BOARD_MAX_X ∧
    BOARD_MIN_Y ≤ (tdoaSolve f sx sy t vs x0 y0).y ∧
    (tdoaSolve f sx sy t vs x0 y0).y ≤ BOARD_MAX_Y ∧
    ∀ q : ℚ × ℚ, BOARD_MIN_X ≤ q.1 → q.1 ≤ BOARD_MAX_X →
      BOARD_MIN_Y ≤ q.2 → q.2 ≤ BOARD_MAX_Y →
      distSq ((tdoaSolve f sx sy t vs x0 y0).x, (tdoaSolve f sx sy t vs x0 y0).y)
          ((gnRun f sx sy vs t).x, (gnRun f sx sy vs t).y) ≤
        distSq q ((gnRun f sx sy vs t).x, (gnRun f sx sy vs t).y) := by
  have hexp : tdoaSolve f sx sy t vs x0 y0 =
      ⟨true, clampX (gnRun f sx sy vs t).x, clampY (gnRun f sx sy vs t).y,
        haveCount t⟩ := by
    rcases tdoaSolve_cases f sx sy t vs x0 y0 with hc | hc
    · rw [hc] at h; simp at h
    · exact hc
  rw [hexp]
  refine ⟨rfl, rfl, (clampX_mem _).1, (clampX_mem _).2, (clampY_mem _).1,
    (clampY_mem _).2, fun q hq1 hq2 hq3 hq4 => ?_⟩
  unfold distSq
  have hx := clampX_nearest (gnRun f sx sy vs t).x q.1 hq1 hq2
  have hy := clampY_nearest (gnRun f sx sy vs t).y q.2 hq3 hq4
  dsimp only
  nlinarith

theorem C3_witness :
    (tdoaSolve ratSqrt SX SY ![100, 100, 100, 100] 3000 0 0).ok = true ∧
    BOARD_MIN_X ≤ (tdoaSolve ratSqrt SX SY ![100, 100, 100, 100] 3000 0 0).x ∧
    (tdoaSolve ratSqrt SX SY ![100, 100, 100, 100] 3000 0 0).x ≤ BOARD_MAX_X :=
  ⟨by decide,
   (C3_success_clamped_in_board ratSqrt SX SY ![100, 100, 100, 100] 3000 0 0
      (by decide)).2.2.1,
   (C3_success_clamped_in_board ratSqrt SX SY ![100, 100, 100, 100] 3000 0 0
      (by decide)).2.2.2.1⟩

/-- **C4.** If the Gauss-Newton loop completes without a singular
system but the RMS of the final residuals over the used sensors
exceeds the `0.02` m threshold, the solver fails (`PoorFit`): it
returns `false` and leaves the caller's position variables
untouched (so the caller falls back to the heuristic). -/
theorem C4_poor_fit_rejected (f : ℚ → ℚ) (sx sy : Fin 4 → ℚ)
    (t : Fin 4 → ℕ) (vs x0 y0 : ℚ)
    (hs : (gnRun f sx sy vs t).sing = false)
    (hr : SOLVER_RMS_THRESH_M <
      f (rssOf f sx sy vs t (gnRun f sx sy vs t).x (gnRun f sx sy vs t).y /
          (rows t : ℚ))) :
    tdoaSolve f sx sy t vs x0 y0 = ⟨false, x0, y0, haveCount t⟩ := by
  simp only [tdoaSolve, tdoaIterPhase]
  split_ifs with h1 h2 h3 h4
  · rfl
  · rfl
  · rfl
  · rfl
  · exact absurd ⟨by omega, hr⟩ h4

theorem C4_witness :
    (gnRun (fun _ => 1) SX SY 3000 ![100, 200, 300, 400]).sing = false ∧
    SOLVER_RMS_THRESH_M < (1 : ℚ) ∧
    tdoaSolve (fun _ => 1) SX SY ![100, 200, 300, 400] 3000 0 0 =
      ⟨false, 0, 0, haveCount ![100, 200, 300, 400]⟩ :=
  ⟨by decide, by norm_num [SOLVER_RMS_THRESH_M],
   C4_poor_fit_rejected (fun _ => 1) SX SY ![100, 200, 300, 400] 3000 0 0
     (by decide) (by norm_num [SOLVER_RMS_THRESH_M])⟩

/-- Case split over the four sensor indices. -/
theorem fin4_cases {P : Fin 4 → Prop} (h0 : P 0) (h1 : P 1) (h2 : P 2) (h3 : P 3) :
    ∀ j : Fin 4, P j := by
  intro j
  match j with
  | 0 => exact h0
  | 1 => exact h1
  | 2 => exact h2
  | 3 => exact h3

/-- The fallback scan finds an earliest-firing channel whenever some
channel fired at a non-sentinel time (a time below `~0u`). -/
theorem fallbackFirst_spec (t : Fin 4 → ℕ)
    (hmin : ∃ i : Fin 4, t i ≠ 0 ∧ t i < UMAX) :
    ∃ i : Fin 4, fallbackFirst t = some i ∧ t i ≠ 0 ∧
      ∀ j : Fin 4, t j ≠ 0 → t i ≤ t j := by
  obtain ⟨k, hk0, hkU⟩ := hmin
  have hk : (t 0 ≠ 0 ∧ t 0 < 4294967295) ∨ (t 1 ≠ 0 ∧ t 1 < 4294967295) ∨
      (t 2 ≠ 0 ∧ t 2 < 4294967295) ∨ (t 3 ≠ 0 ∧ t 3 < 4294967295) := by
    match k with
    | 0 => exact Or.inl ⟨hk0, hkU⟩
    | 1 => exact Or.inr (Or.inl ⟨hk0, hkU⟩)
    | 2 => exact Or.inr (Or.inr (Or.inl ⟨hk0, hkU⟩))
    | 3 => exact Or.inr (Or.inr (Or.inr ⟨hk0, hkU⟩))
  clear hk0 hkU
  unfold fallbackFirst fbStep UMAX at *
  split_ifs at * <;>
    simp_all <;>
    first
      | (refine ⟨0, rfl, by omega, fin4_cases (by omega) (by omega) (by omega)
          (by omega)⟩)
      | (refine ⟨by omega, fin4_cases (by omega) (by omega) (by omega) (by omega)⟩)
      | (exact fin4_cases (by omega) (by omega) (by omega) (by omega))
      | omega

/-- **C2 (counterexample).** The spec's own scenario — only
channels 0 and 2 latch, channel 0 earliest — publishes the fallback
coordinate `0.8 * (SX[0], SY[0]) = (0.16, 0.08)` m with tag
`"partial"`, but this point is strictly *farther* from the board
center `(0.2, 0.2)` than channel 0's own position is: the
coordinate is scaled toward the origin, not biased toward the
board center. -/
theorem C2_counterexample :
    haveCount ![100, 0, 150, 0] = 2 ∧
    processCapture ratSqrt ![100, 0, 150, 0] 3000 =
      ⟨true, 4/25, 2/25, 2, "partial"⟩ ∧
    distSq (SX 0, SY 0) boardCenter < distSq (4/25, 2/25) boardCenter :=
  ⟨by decide, by decide, by decide⟩

/-- **C2 (amended).** Whenever the solver fails or fewer than 3
channels latched, and at least one channel fired at a non-sentinel
time, the published estimate is the fallback: the earliest-firing
channel's position scaled by `0.8` (toward the origin), tagged
`"partial"` when at least 2 channels latched and `"nearest"` when
exactly 1 did. -/
theorem C2_fallback_amended (f : ℚ → ℚ) (t : Fin 4 → ℕ) (vs : ℚ)
    (hmin : ∃ i : Fin 4, t i ≠ 0 ∧ t i < UMAX)
    (hfail : haveCount t < 3 ∨ (tdoaSolve f SX SY t vs 0 0).ok = false) :
    ∃ i : Fin 4, fallbackFirst t = some i ∧ t i ≠ 0 ∧
      (∀ j : Fin 4, t j ≠ 0 → t i ≤ t j) ∧
      processCapture f t vs =
        ⟨true, SX i * (4/5), SY i * (4/5), haveCount t,
          if 2 ≤ haveCount t then "partial" else "nearest"⟩ := by
  obtain ⟨i, hfb, hi0, hmini⟩ := fallbackFirst_spec t hmin
  have hpc : processCapture f t vs = fallbackResult t := by
    simp only [processCapture]
    rcases hfail with hlt | hok
    · rw [if_neg (by omega)]
    · split_ifs with h3 h4
      · rw [hok] at h4; simp at h4
      · rfl
      · rfl
  refine ⟨i, hfb, hi0, hmini, ?_⟩
  rw [hpc]
  unfold fallbackResult
  rw [hfb]

theorem C2_witness :
    (∃ i : Fin 4, (![100, 0, 150, 0] : Fin 4 → ℕ) i ≠ 0 ∧
      (![100, 0, 150, 0] : Fin 4 → ℕ) i < UMAX) ∧
    haveCount ![100, 0, 150, 0] < 3 ∧
    (∃ i : Fin 4, fallbackFirst ![100, 0, 150, 0] = some i ∧
      (![100, 0, 150, 0] : Fin 4 → ℕ) i ≠ 0 ∧
      (∀ j : Fin 4, (![100, 0, 150, 0] : Fin 4 → ℕ) j ≠ 0 →
        (![100, 0, 150, 0] : Fin 4 → ℕ) i ≤ (![100, 0, 150, 0] : Fin 4 → ℕ) j) ∧
      processCapture ratSqrt ![100, 0, 150, 0] 3000 =
        ⟨true, SX i * (4/5), SY i * (4/5), haveCount ![100, 0, 150, 0],
          if 2 ≤ haveCount ![100, 0, 150, 0] then "partial" else "nearest"⟩) :=
  ⟨by decide, by decide,
   C2_fallback_amended ratSqrt ![100, 0, 150, 0] 3000 (by decide)
     (Or.inl (by decide))⟩

/-- Auxiliary facts about the fallback estimate record. -/
theorem fallbackResult_haveTimes (t : Fin 4 → ℕ) :
    (fallbackResult t).haveTimes = haveCount t := by
  unfold fallbackResult
  cases hfb : fallbackFirst t <;> simp

theorem fallbackResult_mode (t : Fin 4 → ℕ) :
    (fallbackResult t).mode ∈ (["tdoa", "partial", "nearest", "none"] : List String) := by
  unfold fallbackResult
  cases hfb : fallbackFirst t
  · simp
  · split_ifs <;> simp

/-- **C6 (counterexample).** A successful solve (all four channels
equidistant from a center impact) publishes the method tag
`"tdoa"`, not `"full"`: the claim's tag name never occurs in the
code's tag set `{tdoa, partial, nearest, none}`. -/
theorem C6_counterexample :
    (tdoaSolve ratSqrt SX SY ![100, 100, 100, 100] 3000 0 0).ok = true ∧
    (processCapture ratSqrt ![100, 100, 100, 100] 3000).mode = "tdoa" ∧
    (processCapture ratSqrt ![100, 100, 100, 100] 3000).mode ≠ "full" :=
  ⟨by decide, by decide, by decide⟩

/-- **C6 (amended).** When the iterative solve succeeds the
published estimate is valid, carries the solver's clamped position,
the method tag `"tdoa"` (the code's name for the spec's "full"
mode), and a sensor count equal to `have`; the sensor count always
equals `have` and the tag always comes from the code's tag set
`{tdoa, partial, nearest, none}`. -/
theorem C6_success_mode_amended (f : ℚ → ℚ) (t : Fin 4 → ℕ) (vs : ℚ) :
    ((tdoaSolve f SX SY t vs 0 0).ok = true →
      processCapture f t vs =
        ⟨true, (tdoaSolve f SX SY t vs 0 0).x, (tdoaSolve f SX SY t vs 0 0).y,
          haveCount t, "tdoa"⟩) ∧
    (processCapture f t vs).haveTimes = haveCount t ∧
    (processCapture f t vs).mode ∈ (["tdoa", "partial", "nearest", "none"] : List String) := by
  refine ⟨fun h => ?_, ?_, ?_⟩
  · simp only [processCapture]
    rw [if_pos (solve_ok_have f SX SY t vs 0 0 h), if_pos h]
  · simp only [processCapture]
    split_ifs <;> first | rfl | exact fallbackResult_haveTimes t
  · simp only [processCapture]
    split_ifs <;> first | exact fallbackResult_mode t | simp

theorem C6_witness :
    (tdoaSolve ratSqrt SX SY ![100, 100, 100, 100] 3000 0 0).ok = true ∧
    processCapture ratSqrt ![100, 100, 100, 100] 3000 =
      ⟨true, (tdoaSolve ratSqrt SX SY ![100, 100, 100, 100] 3000 0 0).x,
        (tdoaSolve ratSqrt SX SY ![100, 100, 100, 100] 3000 0 0).y,
        haveCount ![100, 100, 100, 100], "tdoa"⟩ :=
  ⟨by decide,
   (C6_success_mode_amended ratSqrt ![100, 100, 100, 100] 3000).1 (by decide)⟩

/-- **C5 (counterexample).** A persisted value of `100` m/s — far
below the claimed lower bound `500` — is accepted by the startup
load, whose actual check is only `0 < vs < 20000`; so not every
write to the wave-speed parameter is validated against
`[500, 20000]`. -/
theorem C5_counterexample :
    loadVs 100 3000 = 100 ∧ ¬((500:ℚ) ≤ 100 ∧ (100:ℚ) ≤ 20000) :=
  ⟨by norm_num [loadVs], by norm_num⟩

/-- **C5 (amended).** The startup load accepts a persisted value
exactly when it lies in the open interval `(0, 20000)` m/s; an
inbound `set_vs` override is committed, persisted, and
acknowledged with the applied value exactly when it lies in the
open interval `(500, 20000)` m/s, and is silently ignored
otherwise (no commit, no persistence, no acknowledgment). -/
theorem C5_validation_amended (saved cur v : ℚ) :
    ((0 < saved ∧ saved < 20000) → loadVs saved cur = saved) ∧
    (¬(0 < saved ∧ saved < 20000) → loadVs saved cur = cur) ∧
    ((500 < v ∧ v < 20000) → applySetVs v cur = ⟨v, some v, some v⟩) ∧
    (¬(500 < v ∧ v < 20000) → applySetVs v cur = ⟨cur, none, none⟩) :=
  ⟨fun h => by unfold loadVs; rw [if_pos h],
   fun h => by unfold loadVs; rw [if_neg h],
   fun h => by unfold applySetVs; rw [if_pos h],
   fun h => by unfold applySetVs; rw [if_neg h]⟩

theorem C5_witness :
    ((0:ℚ) < 1000 ∧ (1000:ℚ) < 20000) ∧ loadVs 1000 3000 = 1000 ∧
    ((500:ℚ) < 600 ∧ (600:ℚ) < 20000) ∧
    applySetVs 600 3000 = ⟨600, some 600, some 600⟩ :=
  ⟨by norm_num, (C5_validation_amended 1000 3000 600).1 (by norm_num),
   by norm_num, (C5_validation_amended 1000 3000 600).2.2.1 (by norm_num)⟩

/-- The armed idle state produced by `setup` and by the re-arm. -/
def initCapState : CapState :=
  ⟨fun _ => 0, 0, true, false, false, 0, none, fun _ => 0, fun _ => 0⟩

/-- **C8 (counterexample).** At edge timestamp 0 (`micros() == 0`,
i.e. the boot instant or the 32-bit wrap) the interrupt latch sets
bit 0 of the hit mask while recording a first-arrival of 0 — the
sentinel for "no arrival" — so the latch does not preserve the
invariant "bit i set ⟺ firstArrival ≠ 0". -/
theorem C8_counterexample :
    maskInv initCapState ∧ ¬ maskInv (latch 0 0 initCapState) := by
  decide

/-- The interrupt latch preserves the hit-mask invariant whenever
the latched timestamp is nonzero. -/
theorem latch_maskInv (st : CapState) (i : Fin 4) (now : ℕ)
    (hinv : maskInv st) (hnz : now ≠ 0) : maskInv (latch i now st) := by
  unfold latch
  split_ifs with h1 h2 h3 <;> intro j <;>
    first
      | (rcases eq_or_ne j i with rfl | hne
         · simp [Nat.testBit_lor, Nat.testBit_two_pow_self, hnz]
         · have hv : i.val ≠ j.val := fun hv => hne (Fin.ext hv.symm)
           simp [Nat.testBit_lor, Nat.testBit_two_pow_of_ne hv,
             Function.update_noteq hne, hinv j])
      | exact hinv j

/-- The window-open handoff preserves the hit-mask invariant
whenever the pending trigger time is nonzero. -/
theorem openWindow_maskInv (st : CapState) (hinv : maskInv st)
    (ht0 : st.startPending = true → st.t0 ≠ 0) : maskInv (openWindow st) := by
  unfold openWindow
  split_ifs with h1
  · cases hfi : st.firstIndex with
    | none => simpa [hfi] using fun j => hinv j
    | some k =>
      simp only [hfi]
      split_ifs with h2 <;> intro j <;>
        first
          | exact hinv j
          | (rcases eq_or_ne j k with rfl | hne
             · simp [Nat.testBit_lor, Nat.testBit_two_pow_self, ht0 h1]
             · have hv : k.val ≠ j.val := fun hv => hne (Fin.ext hv.symm)
               simp [Nat.testBit_lor, Nat.testBit_two_pow_of_ne hv,
                 Function.update_noteq hne, hinv j])
  · exact hinv

/-- The post-dead-time re-arm restores the hit-mask invariant
unconditionally (everything is zeroed). -/
theorem rearm_maskInv (st : CapState) : maskInv (rearm st) := by
  intro j
  simp [rearm, Nat.zero_testBit]

/-- **C8 (amended).** The hit-mask invariant — bit `i` set ⟺
channel `i`'s first-arrival is nonzero — is preserved by the
interrupt latch provided the edge timestamp is nonzero, by the
window-open handoff provided the pending trigger time `t0` is
nonzero, and by the post-dead-time re-arm unconditionally.  (At a
zero timestamp the latch breaks it, per the counterexample.) -/
theorem C8_mask_invariant_amended :
    (∀ (st : CapState) (i : Fin 4) (now : ℕ),
        maskInv st → now ≠ 0 → maskInv (latch i now st)) ∧
    (∀ st : CapState, maskInv st → (st.startPending = true → st.t0 ≠ 0) →
        maskInv (openWindow st)) ∧
    (∀ st : CapState, maskInv (rearm st)) :=
  ⟨latch_maskInv, openWindow_maskInv, rearm_maskInv⟩

theorem C8_witness :
    maskInv initCapState ∧ (5:ℕ) ≠ 0 ∧ maskInv (latch 2 5 initCapState) ∧
    maskInv (rearm initCapState) :=
  ⟨by decide, by decide,
   C8_mask_invariant_amended.1 initCapState 2 5 (by decide) (by decide),
   C8_mask_invariant_amended.2.2 initCapState⟩

/-- A dead-time state used for C9: the window has closed, the
system is not yet re-armed, and channel 0's 16-bit diagnostic edge
counter is saturated at `65535`. -/
def dtState : CapState :=
  ⟨fun _ => 7, 15, false, false, false, 100, some 0, fun _ => 65535, fun _ => 50⟩

/-- **C9 (counterexample).** An edge arriving during dead-time on a
channel whose 16-bit edge counter is at `65535` wraps the counter
to `0`: the edge does not *increase* the diagnostic counter. -/
theorem C9_counterexample :
    inDeadtime dtState ∧ dtState.edgeCount 0 = 65535 ∧
    (latch 0 5 dtState).edgeCount 0 = 0 ∧
    ¬ dtState.edgeCount 0 < (latch 0 5 dtState).edgeCount 0 := by
  decide

/-- **C9 (amended).** From window close until re-arm (the dead-time
state: not armed, not capturing, no pending open), an edge on any
channel only updates that channel's diagnostic state — the edge
counter is incremented modulo `2^16` and the last-edge timestamp is
set to the edge time; the hit mask and first-arrival array are
untouched, the system stays in the dead-time state (so no window
opens and no estimate is produced), and the window-open step is a
no-op afterwards. -/
theorem C9_deadtime_amended (st : CapState) (i : Fin 4) (now : ℕ)
    (hd : inDeadtime st) :
    latch i now st =
      { st with
        edgeCount := Function.update st.edgeCount i ((st.edgeCount i + 1) % 65536),
        lastEdgeUs := Function.update st.lastEdgeUs i now } ∧
    inDeadtime (latch i now st) ∧
    (latch i now st).hitMask = st.hitMask ∧
    (latch i now st).firstTime = st.firstTime ∧
    openWindow (latch i now st) = latch i now st := by
  obtain ⟨ha, hc, hp⟩ := hd
  have ha' : st.armed = false := by revert ha; cases st.armed <;> simp
  have hc' : st.capturing = false := by revert hc; cases st.capturing <;> simp
  have hp' : st.startPending = false := by revert hp; cases st.startPending <;> simp
  have hl : latch i now st =
      { st with
        edgeCount := Function.update st.edgeCount i ((st.edgeCount i + 1) % 65536),
        lastEdgeUs := Function.update st.lastEdgeUs i now } := by
    simp [latch, ha', hc', hp']
  refine ⟨hl, ?_, ?_, ?_, ?_⟩
  · rw [hl]; exact ⟨ha, hc, hp⟩
  · rw [hl]
  · rw [hl]
  · rw [hl]; simp [openWindow, hp']

theorem C9_witness :
    inDeadtime dtState ∧
    (latch 1 42 dtState =
      { dtState with
        edgeCount := Function.update dtState.edgeCount 1
          ((dtState.edgeCount 1 + 1) % 65536),
        lastEdgeUs := Function.update dtState.lastEdgeUs 1 42 } ∧
     inDeadtime (latch 1 42 dtState) ∧
     (latch 1 42 dtState).hitMask = dtState.hitMask ∧
     (latch 1 42 dtState).firstTime = dtState.firstTime ∧
     openWindow (latch 1 42 dtState) = latch 1 42 dtState) :=
  ⟨by decide, C9_deadtime_amended dtState 1 42 (by decide)⟩


theorem calibTerm_eq (f : ℚ → ℚ) (tgt : ℚ × ℚ) (t : Fin 4 → Option ℤ) (r : Fin 4)
    (hr0 : t r = some 0) (i : Fin 4) :
    calibTermCode f tgt t r (hyp0 f (tgt.1 - SX r) (tgt.2 - SY r)) i =
      claimTerm f tgt t r i := by
  unfold calibTermCode claimTerm claimA claimB
  by_cases hi : i = r
  · subst hi; simp
  · rcases hti : t i with _ | ti
    · simp [hi, hti]
    · simp [hi, hti, hr0]

theorem calibRef_zero (t : Fin 4 → Option ℤ) (h0 : ∃ i : Fin 4, t i = some 0) :
    ∃ r : Fin 4, calibRef t = some r ∧ t r = some 0 := by
  unfold calibRef
  by_cases h0' : t 0 = some 0
  · exact ⟨0, by simp [h0'], h0'⟩
  · by_cases h1 : t 1 = some 0
    · exact ⟨1, by simp [h0', h1], h1⟩
    · by_cases h2 : t 2 = some 0
      · exact ⟨2, by simp [h0', h1, h2], h2⟩
      · by_cases h3 : t 3 = some 0
        · exact ⟨3, by simp [h0', h1, h2, h3], h3⟩
        · obtain ⟨i, hi⟩ := h0
          exact absurd hi (by
            match i with
            | 0 => exact h0'
            | 1 => exact h1
            | 2 => exact h2
            | 3 => exact h3)

theorem calibTermCode_bb (f : ℚ → ℚ) (tgt : ℚ × ℚ) (t : Fin 4 → Option ℤ)
    (r : Fin 4) (Dr : ℚ) (i : Fin 4) :
    ((calibTermCode f tgt t r Dr i).2 = 0 ∧ (calibTermCode f tgt t r Dr i).1 = 0) ∨
      1/1000000000000 ≤ (calibTermCode f tgt t r Dr i).2 := by
  unfold calibTermCode
  by_cases hi : i = r
  · simp [hi]
  · rcases hti : t i with _ | ti
    · simp [hi, hti]
    · by_cases h0 : ti = 0
      · subst h0; left; constructor <;> simp [hi, hti]
      · right
        have h1 : (1:ℤ) ≤ ti ^ 2 := by nlinarith [sq_nonneg ti, Int.one_le_abs h0, sq_abs ti]
        have h2 : (1:ℚ) ≤ (ti:ℚ) ^ 2 := by exact_mod_cast h1
        simp only [hti, if_neg hi]
        nlinarith


theorem calibTermCode_none (f : ℚ → ℚ) (tgt : ℚ × ℚ) (t : Fin 4 → Option ℤ)
    (r : Fin 4) (Dr : ℚ) (i : Fin 4) (hni : i ≠ r → t i = none) :
    calibTermCode f tgt t r Dr i = (0, 0) := by
  unfold calibTermCode
  by_cases hi : i = r
  · simp [hi]
  · simp [hi, hni hi]

theorem calibStep_char (f : ℚ → ℚ) (tgt : ℚ × ℚ) (t : Fin 4 → Option ℤ)
    (s : CalibSession) (r : Fin 4) (hcr : calibRef t = some r) :
    (calibStep f tgt t s).sum_ab = s.sum_ab +
      ((calibTermCode f tgt t r (hyp0 f (tgt.1 - SX r) (tgt.2 - SY r)) 0).1 +
       (calibTermCode f tgt t r (hyp0 f (tgt.1 - SX r) (tgt.2 - SY r)) 1).1 +
       (calibTermCode f tgt t r (hyp0 f (tgt.1 - SX r) (tgt.2 - SY r)) 2).1 +
       (calibTermCode f tgt t r (hyp0 f (tgt.1 - SX r) (tgt.2 - SY r)) 3).1) ∧
    (calibStep f tgt t s).sum_bb = s.sum_bb +
      ((calibTermCode f tgt t r (hyp0 f (tgt.1 - SX r) (tgt.2 - SY r)) 0).2 +
       (calibTermCode f tgt t r (hyp0 f (tgt.1 - SX r) (tgt.2 - SY r)) 1).2 +
       (calibTermCode f tgt t r (hyp0 f (tgt.1 - SX r) (tgt.2 - SY r)) 2).2 +
       (calibTermCode f tgt t r (hyp0 f (tgt.1 - SX r) (tgt.2 - SY r)) 3).2) ∧
    (calibUsed t r →
      (calibStep f tgt t s).sampleCount = s.sampleCount + 1 ∧
      (calibStep f tgt t s).vsEst =
        some ((calibStep f tgt t s).sum_ab /
          max (calibStep f tgt t s).sum_bb (1/1000000000000))) ∧
    (¬calibUsed t r → calibStep f tgt t s = s) := by
  simp only [calibStep, hcr]
  split_ifs with hu
  · exact ⟨rfl, rfl, fun _ => ⟨rfl, rfl⟩, fun hn => absurd hu hn⟩
  · refine ⟨rfl, rfl, fun hc => absurd hc hu, fun _ => ?_⟩
    have hno : ∀ i : Fin 4, i ≠ r → t i = none := by
      intro i hi
      by_contra hne
      exact hu ⟨i, hi, Option.ne_none_iff_isSome.mp hne⟩
    rw [calibTermCode_none f tgt t r _ 0 (hno 0), calibTermCode_none f tgt t r _ 1 (hno 1),
        calibTermCode_none f tgt t r _ 2 (hno 2), calibTermCode_none f tgt t r _ 3 (hno 3)]
    simp

theorem calibStep_sessOk (f : ℚ → ℚ) (tgt : ℚ × ℚ) (t : Fin 4 → Option ℤ)
    (s : CalibSession) (hs : SessOk s) : SessOk (calibStep f tgt t s) := by
  rcases hcr : calibRef t with _ | r
  · simpa [calibStep, hcr] using hs
  · obtain ⟨hab, hbb, -, -⟩ := calibStep_char f tgt t s r hcr
    have h0 := calibTermCode_bb f tgt t r (hyp0 f (tgt.1 - SX r) (tgt.2 - SY r)) 0
    have h1 := calibTermCode_bb f tgt t r (hyp0 f (tgt.1 - SX r) (tgt.2 - SY r)) 1
    have h2 := calibTermCode_bb f tgt t r (hyp0 f (tgt.1 - SX r) (tgt.2 - SY r)) 2
    have h3 := calibTermCode_bb f tgt t r (hyp0 f (tgt.1 - SX r) (tgt.2 - SY r)) 3
    constructor
    · intro hz
      rw [hbb] at hz
      rw [hab]
      have hS0 : s.sum_bb = 0 := by
        rcases hs.2 with h | h <;>
          rcases h0 with ⟨hT0, _⟩ | hT0 <;> rcases h1 with ⟨hT1, _⟩ | hT1 <;>
          rcases h2 with ⟨hT2, _⟩ | hT2 <;> rcases h3 with ⟨hT3, _⟩ | hT3 <;>
          linarith
      have hA0 : s.sum_ab = 0 := hs.1 hS0
      rcases h0 with ⟨hT0, hU0⟩ | hT0 <;> rcases h1 with ⟨hT1, hU1⟩ | hT1 <;>
        rcases h2 with ⟨hT2, hU2⟩ | hT2 <;> rcases h3 with ⟨hT3, hU3⟩ | hT3 <;>
        linarith
    · rw [hbb]
      rcases hs.2 with hS | hS <;>
        rcases h0 with ⟨hT0, _⟩ | hT0 <;> rcases h1 with ⟨hT1, _⟩ | hT1 <;>
        rcases h2 with ⟨hT2, _⟩ | hT2 <;> rcases h3 with ⟨hT3, _⟩ | hT3 <;>
        first | (left; linarith) | (right; linarith)

theorem calibStep_vsEst (f : ℚ → ℚ) (tgt : ℚ × ℚ) (t : Fin 4 → Option ℤ)
    (s : CalibSession) (r : Fin 4) (hcr : calibRef t = some r) (hs : SessOk s)
    (hu : calibUsed t r) :
    (calibStep f tgt t s).vsEst =
      some ((calibStep f tgt t s).sum_ab / (calibStep f tgt t s).sum_bb) := by
  obtain ⟨-, -, hused, -⟩ := calibStep_char f tgt t s r hcr
  obtain ⟨-, hv⟩ := hused hu
  rw [hv]
  have hs2 := calibStep_sessOk f tgt t s hs
  rcases hs2.2 with hz | hz
  · rw [hz, hs2.1 hz]
    simp
  · rw [max_eq_left (by linarith)]


/-- A commit request succeeds only with at least 5 samples and an
estimate the device-side validation accepts; otherwise it is a
no-op. -/
theorem commit_char (s : CalibSession) (cur : ℚ) :
    (commitRequest s cur ≠ ⟨cur, none, none⟩ →
      5 ≤ s.sampleCount ∧ ∃ v : ℚ, s.vsEst = some v ∧ 500 ≤ v ∧ v ≤ 20000) ∧
    (¬(5 ≤ s.sampleCount ∧ ∃ v : ℚ, s.vsEst = some v ∧ 500 ≤ v ∧ v ≤ 20000) →
      commitRequest s cur = ⟨cur, none, none⟩) := by
  rcases hv : s.vsEst with _ | v
  · refine ⟨fun h => absurd ?_ h, fun _ => ?_⟩ <;> simp [commitRequest, hv]
  · simp only [commitRequest, applySetVs, hv]
    split_ifs with hg hr
    · refine ⟨fun _ => ⟨hg.2, v, rfl, le_of_lt hr.1, le_of_lt hr.2⟩,
        fun hn => absurd ⟨hg.2, v, rfl, le_of_lt hr.1, le_of_lt hr.2⟩ hn⟩
    · exact ⟨fun h => absurd rfl h, fun _ => rfl⟩
    · exact ⟨fun h => absurd rfl h, fun _ => rfl⟩

/-- **C7.** For every calibration session: a capture snapshot with a
zero relative arrival (as every device-produced snapshot has, the
trigger channel being latched at `t0`) selects that channel as the
reference; each firing channel `i ≠ ref` contributes
`a = dist(target, s_i) − dist(target, s_ref)` meters and
`b = (t[i] − t[ref]) × 1e-6` seconds to the running sums `Σ(a·b)`
and `Σ(b·b)`; on a qualifying capture the sample count increments
and the running estimate equals `Σ(a·b) / Σ(b·b)` (with `x/0 = 0`
read as the code's guarded `Σ(a·b)/max(Σ(b·b), 1e-12)`, the two
agreeing for integer-microsecond data); and committing is permitted
only once the sample count is at least 5 and the estimate lies
within `[500, 20000]` m/s, any other commit request being a no-op. -/
theorem C7_calibration_least_squares (f : ℚ → ℚ) (tgt : ℚ × ℚ)
    (t : Fin 4 → Option ℤ) (s : CalibSession)
    (h0 : ∃ i : Fin 4, t i = some 0) (hs : SessOk s) :
    ∃ r : Fin 4, calibRef t = some r ∧ t r = some 0 ∧
      (calibStep f tgt t s).sum_ab = s.sum_ab +
        ((claimTerm f tgt t r 0).1 + (claimTerm f tgt t r 1).1 +
         (claimTerm f tgt t r 2).1 + (claimTerm f tgt t r 3).1) ∧
      (calibStep f tgt t s).sum_bb = s.sum_bb +
        ((claimTerm f tgt t r 0).2 + (claimTerm f tgt t r 1).2 +
         (claimTerm f tgt t r 2).2 + (claimTerm f tgt t r 3).2) ∧
      (calibUsed t r →
        (calibStep f tgt t s).sampleCount = s.sampleCount + 1 ∧
        (calibStep f tgt t s).vsEst =
          some ((calibStep f tgt t s).sum_ab / (calibStep f tgt t s).sum_bb)) ∧
      (¬calibUsed t r → calibStep f tgt t s = s) ∧
      SessOk (calibStep f tgt t s) ∧
      ∀ cur : ℚ,
        (commitRequest (calibStep f tgt t s) cur ≠ ⟨cur, none, none⟩ →
          5 ≤ (calibStep f tgt t s).sampleCount ∧
          ∃ v : ℚ, (calibStep f tgt t s).vsEst = some v ∧ 500 ≤ v ∧ v ≤ 20000) ∧
        (¬(5 ≤ (calibStep f tgt t s).sampleCount ∧
            ∃ v : ℚ, (calibStep f tgt t s).vsEst = some v ∧ 500 ≤ v ∧ v ≤ 20000) →
          commitRequest (calibStep f tgt t s) cur = ⟨cur, none, none⟩) := by
  obtain ⟨r, hcr, hr0⟩ := calibRef_zero t h0
  obtain ⟨hab, hbb, hused, hunused⟩ := calibStep_char f tgt t s r hcr
  refine ⟨r, hcr, hr0, ?_, ?_, fun hu => ⟨(hused hu).1,
    calibStep_vsEst f tgt t s r hcr hs hu⟩, hunused,
    calibStep_sessOk f tgt t s hs, fun cur => commit_char _ cur⟩
  · rw [hab, calibTerm_eq f tgt t r hr0 0, calibTerm_eq f tgt t r hr0 1,
        calibTerm_eq f tgt t r hr0 2, calibTerm_eq f tgt t r hr0 3]
  · rw [hbb, calibTerm_eq f tgt t r hr0 0, calibTerm_eq f tgt t r hr0 1,
        calibTerm_eq f tgt t r hr0 2, calibTerm_eq f tgt t r hr0 3]

/-- A concrete calibration snapshot: channel 0 at relative 0 µs,
channel 1 at 100 µs. -/
def tC7 : Fin 4 → Option ℤ := ![some 0, some 100, none, none]

/-- The freshly started calibration session. -/
def sC7 : CalibSession := ⟨0, 0, 0, none⟩

theorem C7_witness :
    (∃ i : Fin 4, tC7 i = some 0) ∧ SessOk sC7 ∧
    (∃ r : Fin 4, calibRef tC7 = some r ∧ tC7 r = some 0 ∧
      (calibStep ratSqrt (1/5, 1/5) tC7 sC7).sum_ab = sC7.sum_ab +
        ((claimTerm ratSqrt (1/5, 1/5) tC7 r 0).1 + (claimTerm ratSqrt (1/5, 1/5) tC7 r 1).1 +
         (claimTerm ratSqrt (1/5, 1/5) tC7 r 2).1 + (claimTerm ratSqrt (1/5, 1/5) tC7 r 3).1) ∧
      (calibStep ratSqrt (1/5, 1/5) tC7 sC7).sum_bb = sC7.sum_bb +
        ((claimTerm ratSqrt (1/5, 1/5) tC7 r 0).2 + (claimTerm ratSqrt (1/5, 1/5) tC7 r 1).2 +
         (claimTerm ratSqrt (1/5, 1/5) tC7 r 2).2 + (claimTerm ratSqrt (1/5, 1/5) tC7 r 3).2) ∧
      (calibUsed tC7 r →
        (calibStep ratSqrt (1/5, 1/5) tC7 sC7).sampleCount = sC7.sampleCount + 1 ∧
        (calibStep ratSqrt (1/5, 1/5) tC7 sC7).vsEst =
          some ((calibStep ratSqrt (1/5, 1/5) tC7 sC7).sum_ab /
            (calibStep ratSqrt (1/5, 1/5) tC7 sC7).sum_bb)) ∧
      (¬calibUsed tC7 r → calibStep ratSqrt (1/5, 1/5) tC7 sC7 = sC7) ∧
      SessOk (calibStep ratSqrt (1/5, 1/5) tC7 sC7) ∧
      ∀ cur : ℚ,
        (commitRequest (calibStep ratSqrt (1/5, 1/5) tC7 sC7) cur ≠ ⟨cur, none, none⟩ →
          5 ≤ (calibStep ratSqrt (1/5, 1/5) tC7 sC7).sampleCount ∧
          ∃ v : ℚ, (calibStep ratSqrt (1/5, 1/5) tC7 sC7).vsEst = some v ∧
            500 ≤ v ∧ v ≤ 20000) ∧
        (¬(5 ≤ (calibStep ratSqrt (1/5, 1/5) tC7 sC7).sampleCount ∧
            ∃ v : ℚ, (calibStep ratSqrt (1/5, 1/5) tC7 sC7).vsEst = some v ∧
              500 ≤ v ∧ v ≤ 20000) →
          commitRequest (calibStep ratSqrt (1/5, 1/5) tC7 sC7) cur = ⟨cur, none, none⟩)) :=
  ⟨by decide, by decide,
   C7_calibration_least_squares ratSqrt (1/5, 1/5) tC7 sC7 (by decide) (by decide)⟩

end Shock
